import Mathlib

/-!
Verification of the SnapReview server core: the tolerant LLM-response
normalizer (`parseAIResponse` in `src/lib/ai/prompts.ts`), the evaluation
orchestration (timeout wrapper in `src/server/routes/evaluate.ts`, credential
guard and client selection in `src/lib/ai/prompts.ts` / `nvidia-client.ts`),
and the paywalled full-evaluation route (`src/server/routes/evaluations.ts`).

JavaScript data is embedded shallowly: JSON values become the inductive
`JVal` (numbers as `ℚ`), JS strings become Lean `String` / `List Char`,
JS objects become association lists normalized so that a duplicate key
overwrites the value at the first occurrence (the behaviour of repeated
property assignment in `JSON.parse`).
-/

set_option maxRecDepth 200000

/-- A parsed JSON value, as produced by `JSON.parse`. Arrays keep element
order; objects keep first-occurrence key order with last-wins values. -/
inductive JVal where
  | null : JVal
  | bool (b : Bool) : JVal
  | num (q : ℚ) : JVal
  | str (s : String) : JVal
  | arr (elems : List JVal) : JVal
  | obj (fields : List (String × JVal)) : JVal

mutual

/-- Boolean structural equality on `JVal`. -/
def JVal.beq : JVal → JVal → Bool
  | .null, .null => true
  | .bool a, .bool b => a == b
  | .num a, .num b => a == b
  | .str a, .str b => a == b
  | .arr a, .arr b => JVal.beqList a b
  | .obj a, .obj b => JVal.beqFields a b
  | _, _ => false

/-- Boolean equality on lists of `JVal`. -/
def JVal.beqList : List JVal → List JVal → Bool
  | [], [] => true
  | a :: as, b :: bs => JVal.beq a b && JVal.beqList as bs
  | _, _ => false

/-- Boolean equality on object field lists. -/
def JVal.beqFields : List (String × JVal) → List (String × JVal) → Bool
  | [], [] => true
  | (k, v) :: as, (k', v') :: bs => k == k' && JVal.beq v v' && JVal.beqFields as bs
  | _, _ => false

end

mutual

theorem JVal.beq_refl : (a : JVal) → JVal.beq a a = true
  | .null => rfl
  | .bool b => by simp [JVal.beq]
  | .num q => by simp [JVal.beq]
  | .str s => by simp [JVal.beq]
  | .arr xs => by simp [JVal.beq, JVal.beqList_refl xs]
  | .obj fs => by simp [JVal.beq, JVal.beqFields_refl fs]

theorem JVal.beqList_refl : (xs : List JVal) → JVal.beqList xs xs = true
  | [] => rfl
  | a :: as => by simp [JVal.beqList, JVal.beq_refl a, JVal.beqList_refl as]

theorem JVal.beqFields_refl : (fs : List (String × JVal)) → JVal.beqFields fs fs = true
  | [] => rfl
  | (k, v) :: fs => by simp [JVal.beqFields, JVal.beq_refl v, JVal.beqFields_refl fs]

end

mutual

theorem JVal.eq_of_beq : (a b : JVal) → JVal.beq a b = true → a = b
  | .null, .null, _ => rfl
  | .null, .bool _, h | .null, .num _, h | .null, .str _, h | .null, .arr _, h
  | .null, .obj _, h => by simp [JVal.beq] at h
  | .bool _, .null, h | .bool _, .num _, h | .bool _, .str _, h | .bool _, .arr _, h
  | .bool _, .obj _, h => by simp [JVal.beq] at h
  | .bool a, .bool b, h => by simp [JVal.beq] at h; simp [h]
  | .num _, .null, h | .num _, .bool _, h | .num _, .str _, h | .num _, .arr _, h
  | .num _, .obj _, h => by simp [JVal.beq] at h
  | .num a, .num b, h => by simp [JVal.beq] at h; simp [h]
  | .str _, .null, h | .str _, .bool _, h | .str _, .num _, h | .str _, .arr _, h
  | .str _, .obj _, h => by simp [JVal.beq] at h
  | .str a, .str b, h => by simp [JVal.beq] at h; simp [h]
  | .arr _, .null, h | .arr _, .bool _, h | .arr _, .num _, h | .arr _, .str _, h
  | .arr _, .obj _, h => by simp [JVal.beq] at h
  | .arr a, .arr b, h => by
      simp only [JVal.beq] at h
      exact congrArg JVal.arr (JVal.eqList_of_beq a b h)
  | .obj _, .null, h | .obj _, .bool _, h | .obj _, .num _, h | .obj _, .str _, h
  | .obj _, .arr _, h => by simp [JVal.beq] at h
  | .obj a, .obj b, h => by
      simp only [JVal.beq] at h
      exact congrArg JVal.obj (JVal.eqFields_of_beq a b h)

theorem JVal.eqList_of_beq : (xs ys : List JVal) → JVal.beqList xs ys = true → xs = ys
  | [], [], _ => rfl
  | [], _ :: _, h => by simp [JVal.beqList] at h
  | _ :: _, [], h => by simp [JVal.beqList] at h
  | a :: as, b :: bs, h => by
      simp only [JVal.beqList, Bool.and_eq_true] at h
      rw [JVal.eq_of_beq a b h.1, JVal.eqList_of_beq as bs h.2]

theorem JVal.eqFields_of_beq :
    (xs ys : List (String × JVal)) → JVal.beqFields xs ys = true → xs = ys
  | [], [], _ => rfl
  | [], _ :: _, h => by simp [JVal.beqFields] at h
  | _ :: _, [], h => by simp [JVal.beqFields] at h
  | (k, v) :: as, (k', v') :: bs, h => by
      simp only [JVal.beqFields, Bool.and_eq_true, beq_iff_eq] at h
      rw [h.1.1, JVal.eq_of_beq v v' h.1.2, JVal.eqFields_of_beq as bs h.2]

end

instance : DecidableEq JVal := fun a b =>
  if h : JVal.beq a b = true then
    isTrue (JVal.eq_of_beq a b h)
  else
    isFalse (fun he => h (he ▸ JVal.beq_refl a))

/-- JavaScript truthiness of a JSON value (`!v` is `false` exactly when
`v` is truthy): `null`, `false`, `0` and `""` are falsy, everything else
(including `{}` and `[]`) is truthy. -/
def jsTruthy : JVal → Bool
  | .null => false
  | .bool b => b
  | .num q => q != 0
  | .str s => s != ""
  | .arr _ => true
  | .obj _ => true

/-- Truthiness of a possibly-absent property (`undefined` is falsy). -/
def jsTruthyOpt : Option JVal → Bool
  | some v => jsTruthy v
  | none => false

/-- `typeof v === 'number'` for a possibly-absent property. -/
def jsIsNumberOpt : Option JVal → Bool
  | some (.num _) => true
  | _ => false

/-- `typeof v === 'object' && v !== null`: JSON objects and arrays both have
`typeof` equal to `'object'`; `null` is excluded by the explicit null check. -/
def jsTypeofObject : JVal → Bool
  | .obj _ => true
  | .arr _ => true
  | _ => false

/-- First-match lookup of a property in an object field list. -/
def getF : List (String × JVal) → String → Option JVal
  | [], _ => none
  | (k', v) :: rest, k => if k' = k then some v else getF rest k

/-- Property assignment: overwrite the value at the first occurrence of the
key, keeping its position, or append the property if the key is absent.
This is both how `JSON.parse` handles duplicate keys and how
`parsed.k = ...` behaves on a plain object. -/
def jsInsert : List (String × JVal) → String → JVal → List (String × JVal)
  | [], k, v => [(k, v)]
  | (k', v') :: rest, k, v =>
    if k' = k then (k', v) :: rest else (k', v') :: jsInsert rest k v

/-- Property read on a JSON value: only objects have (modelled) properties. -/
def jsGet (v : JVal) (k : String) : Option JVal :=
  match v with
  | .obj fs => getF fs k
  | _ => none

/-- Property write on a JSON value. Writing a named property on an array is
not observable through `jsGet` in any code path modelled here (an array
always fails the mandatory-field validation), so non-objects are returned
unchanged. -/
def jsSet (v : JVal) (k : String) (x : JVal) : JVal :=
  match v with
  | .obj fs => .obj (jsInsert fs k x)
  | other => other

/-! ### JSON.parse

A faithful executable model of JavaScript's `JSON.parse` grammar over
`List Char`: the four JSON whitespace characters, strings with the JSON
escape set (`\uXXXX` surrogate pairs combined into one scalar, a lone
surrogate replaced by U+FFFD), numbers per the JSON grammar mapped to `ℚ`,
and the whole input required to be consumed. Recursion is by fuel; the
top-level entry point supplies more fuel than any input can consume. -/

/-- The four JSON whitespace characters accepted by `JSON.parse`. -/
def isJsonWs (c : Char) : Bool :=
  c == ' ' || c == '\t' || c == '\n' || c == '\r'

/-- Skip JSON whitespace. -/
def skipJsonWs (cs : List Char) : List Char := cs.dropWhile isJsonWs

/-- Value of a hexadecimal digit. -/
def hexDigit? (c : Char) : Option Nat :=
  if '0' ≤ c ∧ c ≤ '9' then some (c.toNat - 48)
  else if 'a' ≤ c ∧ c ≤ 'f' then some (c.toNat - 87)
  else if 'A' ≤ c ∧ c ≤ 'F' then some (c.toNat - 55)
  else none

/-- Numeric value of four hex digits, if all four are valid. -/
def hex4? (a b c d : Char) : Option Nat :=
  match hexDigit? a, hexDigit? b, hexDigit? c, hexDigit? d with
  | some x, some y, some z, some w => some (((x * 16 + y) * 16 + z) * 16 + w)
  | _, _, _, _ => none

/-- Body of a JSON string literal after the opening quote. JS strings are
UTF-16; a surrogate pair written as two `\u` escapes is combined into the
encoded scalar, and a lone surrogate (unrepresentable in a Lean `Char`) is
modelled as U+FFFD. Unescaped control characters are rejected, as in
`JSON.parse`. -/
def jsonStringBody : List Char → List Char → Option (String × List Char)
  | [], _ => none
  | c :: rest, acc =>
    if c = '"' then some (⟨acc.reverse⟩, rest)
    else if c = '\\' then
      match rest with
      | [] => none
      | e :: rest' =>
        if e = '"' then jsonStringBody rest' ('"' :: acc)
        else if e = '\\' then jsonStringBody rest' ('\\' :: acc)
        else if e = '/' then jsonStringBody rest' ('/' :: acc)
        else if e = 'b' then jsonStringBody rest' (Char.ofNat 8 :: acc)
        else if e = 'f' then jsonStringBody rest' (Char.ofNat 12 :: acc)
        else if e = 'n' then jsonStringBody rest' ('\n' :: acc)
        else if e = 'r' then jsonStringBody rest' ('\r' :: acc)
        else if e = 't' then jsonStringBody rest' ('\t' :: acc)
        else if e = 'u' then
          match rest' with
          | a :: b :: c2 :: d :: '\\' :: 'u' :: a2 :: b2 :: c3 :: d2 :: rest3 =>
            match hex4? a b c2 d with
            | none => none
            | some n =>
              if 0xd800 ≤ n ∧ n ≤ 0xdbff then
                match hex4? a2 b2 c3 d2 with
                | some m =>
                  if 0xdc00 ≤ m ∧ m ≤ 0xdfff then
                    jsonStringBody rest3
                      (Char.ofNat (0x10000 + (n - 0xd800) * 0x400 + (m - 0xdc00)) :: acc)
                  else
                    jsonStringBody ('\\' :: 'u' :: a2 :: b2 :: c3 :: d2 :: rest3)
                      (Char.ofNat 0xfffd :: acc)
                | none =>
                  jsonStringBody ('\\' :: 'u' :: a2 :: b2 :: c3 :: d2 :: rest3)
                    (Char.ofNat 0xfffd :: acc)
              else if 0xdc00 ≤ n ∧ n ≤ 0xdfff then
                jsonStringBody ('\\' :: 'u' :: a2 :: b2 :: c3 :: d2 :: rest3)
                  (Char.ofNat 0xfffd :: acc)
              else
                jsonStringBody ('\\' :: 'u' :: a2 :: b2 :: c3 :: d2 :: rest3)
                  (Char.ofNat n :: acc)
          | a :: b :: c2 :: d :: rest2 =>
            match hex4? a b c2 d with
            | none => none
            | some n =>
              if 0xd800 ≤ n ∧ n ≤ 0xdfff then jsonStringBody rest2 (Char.ofNat 0xfffd :: acc)
              else jsonStringBody rest2 (Char.ofNat n :: acc)
          | _ => none
        else none
    else if c.toNat < 32 then none
    else jsonStringBody rest (c :: acc)

/-- Decimal digits to a natural number. -/
def digitsToNat (ds : List Char) : Nat :=
  ds.foldl (fun n c => 10 * n + (c.toNat - 48)) 0

/-- Integer part of a JSON number: `0`, or a nonzero digit followed by
digits (leading zeros are rejected, as in `JSON.parse`). -/
def jsonIntPart : List Char → Option (Nat × List Char)
  | '0' :: rest => some (0, rest)
  | c :: rest =>
    if '1' ≤ c ∧ c ≤ '9' then
      some (digitsToNat (c :: rest.takeWhile Char.isDigit), rest.dropWhile Char.isDigit)
    else none
  | [] => none

/-- Optional fraction part: `.` followed by at least one digit. -/
def jsonFracPart : List Char → Option (List Char × List Char)
  | '.' :: rest =>
    let ds := rest.takeWhile Char.isDigit
    if ds.isEmpty then none else some (ds, rest.dropWhile Char.isDigit)
  | cs => some ([], cs)

/-- Optional exponent part: `e`/`E`, optional sign, at least one digit.
Returns (exponent is negative, exponent magnitude, rest). -/
def jsonExpPart : List Char → Option (Bool × Nat × List Char)
  | c :: rest =>
    if c = 'e' ∨ c = 'E' then
      let signed : Bool × List Char :=
        match rest with
        | '+' :: r => (false, r)
        | '-' :: r => (true, r)
        | r => (false, r)
      let ds := signed.2.takeWhile Char.isDigit
      if ds.isEmpty then none
      else some (signed.1, digitsToNat ds, signed.2.dropWhile Char.isDigit)
    else some (false, 0, c :: rest)
  | [] => some (false, 0, [])

/-- Assemble a rational from the parts of a JSON number literal: the exact
value `± (ip.frac) · 10^(±ev)` as a single fraction. -/
def mkJsonNum (neg : Bool) (ip : Nat) (frac : List Char) (eneg : Bool) (ev : Nat) : ℚ :=
  let mant : Int := (ip * 10 ^ frac.length + digitsToNat frac : Nat)
  let mant : Int := if neg then -mant else mant
  if eneg then mkRat mant (10 ^ (frac.length + ev))
  else mkRat (mant * 10 ^ ev) (10 ^ frac.length)

/-- A JSON number literal: optional minus, integer part, optional fraction,
optional exponent. -/
def jsonNumber (cs : List Char) : Option (ℚ × List Char) :=
  let signed : Bool × List Char :=
    match cs with
    | '-' :: r => (true, r)
    | r => (false, r)
  match jsonIntPart signed.2 with
  | none => none
  | some (ip, cs₂) =>
    match jsonFracPart cs₂ with
    | none => none
    | some (frac, cs₃) =>
      match jsonExpPart cs₃ with
      | none => none
      | some (eneg, ev, cs₄) => some (mkJsonNum signed.1 ip frac eneg ev, cs₄)

mutual

/-- A JSON value. Fuel decreases at every recursive call; the entry point
supplies more fuel than any input can exhaust. -/
def parseJsonValue : Nat → List Char → Option (JVal × List Char)
  | 0, _ => none
  | fuel + 1, cs =>
    match cs with
    | '{' :: rest =>
      match skipJsonWs rest with
      | '}' :: r => some (.obj [], r)
      | cs' =>
        match parseJsonMembers fuel [] cs' with
        | some (fs, r) => some (.obj fs, r)
        | none => none
    | '[' :: rest =>
      match skipJsonWs rest with
      | ']' :: r => some (.arr [], r)
      | cs' =>
        match parseJsonElems fuel [] cs' with
        | some (vs, r) => some (.arr vs, r)
        | none => none
    | '"' :: rest =>
      match jsonStringBody rest [] with
      | some (s, r) => some (.str s, r)
      | none => none
    | 't' :: 'r' :: 'u' :: 'e' :: r => some (.bool true, r)
    | 'f' :: 'a' :: 'l' :: 's' :: 'e' :: r => some (.bool false, r)
    | 'n' :: 'u' :: 'l' :: 'l' :: r => some (.null, r)
    | cs' =>
      match jsonNumber cs' with
      | some (q, r) => some (.num q, r)
      | none => none

/-- Members of a JSON object after the opening brace (at least one member).
Duplicate keys overwrite in place via `jsInsert`, as in `JSON.parse`. -/
def parseJsonMembers :
    Nat → List (String × JVal) → List Char → Option (List (String × JVal) × List Char)
  | 0, _, _ => none
  | fuel + 1, acc, cs =>
    match cs with
    | '"' :: rest =>
      match jsonStringBody rest [] with
      | none => none
      | some (key, r1) =>
        match skipJsonWs r1 with
        | ':' :: r2 =>
          match parseJsonValue fuel (skipJsonWs r2) with
          | none => none
          | some (v, r3) =>
            match skipJsonWs r3 with
            | ',' :: r4 => parseJsonMembers fuel (jsInsert acc key v) (skipJsonWs r4)
            | '}' :: r4 => some (jsInsert acc key v, r4)
            | _ => none
        | _ => none
    | _ => none

/-- Elements of a JSON array after the opening bracket (at least one). -/
def parseJsonElems : Nat → List JVal → List Char → Option (List JVal × List Char)
  | 0, _, _ => none
  | fuel + 1, acc, cs =>
    match parseJsonValue fuel cs with
    | none => none
    | some (v, r) =>
      match skipJsonWs r with
      | ',' :: r2 => parseJsonElems fuel (v :: acc) (skipJsonWs r2)
      | ']' :: r2 => some ((v :: acc).reverse, r2)
      | _ => none

end

/-- `JSON.parse` on a character list: leading/trailing JSON whitespace
allowed, exactly one value, whole input consumed. -/
def jsonParseL (cs : List Char) : Option JVal :=
  match parseJsonValue (4 * cs.length + 4) (skipJsonWs cs) with
  | some (v, rest) =>
    match skipJsonWs rest with
    | [] => some v
    | _ => none
  | none => none

/-! ### The tolerant response normalizer (`parseAIResponse`)

Transliteration of `parseAIResponse` from `src/lib/ai/prompts.ts`:
trim, strip a markdown fence, slice from the first brace to the last
brace, `JSON.parse`, brace-balanced recovery on failure, then structure
normalization and mandatory-field validation, with a fixed fallback
record returned whenever anything throws. -/

/-- Characters removed by JavaScript's `String.prototype.trim`
(ECMAScript WhiteSpace and LineTerminator). -/
def isJsTrimWs (c : Char) : Bool :=
  c == ' ' || c == '\t' || c == '\n' || c == '\r' ||
  c.toNat == 0x0b || c.toNat == 0x0c || c.toNat == 0xa0 || c.toNat == 0x1680 ||
  decide (0x2000 ≤ c.toNat ∧ c.toNat ≤ 0x200a) ||
  c.toNat == 0x2028 || c.toNat == 0x2029 || c.toNat == 0x202f ||
  c.toNat == 0x205f || c.toNat == 0x3000 || c.toNat == 0xfeff

/-- `response.trim()`. -/
def jsTrimL (cs : List Char) : List Char :=
  ((cs.dropWhile isJsTrimWs).reverse.dropWhile isJsTrimWs).reverse

/-- The backquote character used by markdown code fences. -/
def backquote : Char := Char.ofNat 96

/-- The fence-stripping step: when the trimmed text starts with three
backquotes, `.replace(regex1, '').replace(regex2, '')` where the first
pattern is anchored at the start and matches three backquotes, an optional
literal `json` tag and an optional newline, and the second is anchored at
the end and matches a newline followed by three backquotes. -/
def stripFencesL (cs : List Char) : List Char :=
  if cs.take 3 = [backquote, backquote, backquote] then
    let r := cs.drop 3
    let r := if r.take 4 = ['j', 's', 'o', 'n'] then r.drop 4 else r
    let r := match r with
      | '\n' :: t => t
      | t => t
    if r.drop (r.length - 4) = ['\n', backquote, backquote, backquote] then
      r.take (r.length - 4)
    else r
  else cs

/-- `cs.indexOf(c)` as an option. -/
def firstIdxOf? (cs : List Char) (c : Char) : Option Nat :=
  cs.findIdx? (· == c)

/-- `cs.lastIndexOf(c)` as an option. -/
def lastIdxOf? (cs : List Char) (c : Char) : Option Nat :=
  match cs.reverse.findIdx? (· == c) with
  | some k => some (cs.length - 1 - k)
  | none => none

/-- The brace-slicing step: `cleaned.slice(firstBrace, lastBrace + 1)`
when both `indexOf('\x7b')` and `lastIndexOf('\x7d')` succeed (JS `slice`
returns the empty string when the start is not before the end). -/
def sliceBracesL (cs : List Char) : List Char :=
  match firstIdxOf? cs '{', lastIdxOf? cs '}' with
  | some i, some j => (cs.take (j + 1)).drop i
  | _, _ => cs

/-- The full cleaning prefix of `parseAIResponse`: trim, strip fences,
slice braces. -/
def cleanInputL (cs : List Char) : List Char :=
  sliceBracesL (stripFencesL (jsTrimL cs))

/-- Final state of the character scan used by the recovery path. -/
structure ScanState where
  endIdx : Option Nat
  lastValid : Option Nat
  braceCount : Int
deriving DecidableEq

/-- The character-by-character scan of the recovery path: tracks an
escape-pending flag, an in-string flag toggled by unescaped quotes, and a
brace counter updated outside strings; records the index of every closing
brace seen (`lastValid`) and stops with `endIdx` set at the closing brace
that returns the counter to zero. -/
def braceScan : List Char → Nat → Int → Bool → Bool → Option Nat → ScanState
  | [], _, bc, _, _, lv => ⟨none, lv, bc⟩
  | c :: rest, i, bc, inStr, esc, lv =>
    if esc then braceScan rest (i + 1) bc inStr false lv
    else if c = '\\' then braceScan rest (i + 1) bc inStr true lv
    else if c = '"' then braceScan rest (i + 1) bc (!inStr) false lv
    else if inStr then braceScan rest (i + 1) bc inStr false lv
    else if c = '{' then braceScan rest (i + 1) (bc + 1) inStr false lv
    else if c = '}' then
      if bc - 1 = 0 then ⟨some i, some i, bc - 1⟩
      else braceScan rest (i + 1) (bc - 1) inStr false (some i)
    else braceScan rest (i + 1) bc inStr false lv

/-- The dangling-string repair attempted on a truncated candidate: when
the candidate holds an odd number of quote characters, the code counts the
quotes strictly before the last quote and, only if that count is odd,
truncates at the last closing brace and appends a quote and a brace.
(The count before the last quote is always the odd total minus one, hence
even, so the inner branch never fires; it is transliterated regardless.) -/
def fixUnterminatedJson (fixed : List Char) : List Char :=
  if (fixed.count '"') % 2 ≠ 0 then
    match lastIdxOf? fixed '"' with
    | some lastQuoteIdx =>
      let beforeLastQuote := fixed.take lastQuoteIdx
      if (beforeLastQuote.count '"') % 2 = 1 then
        let braceIdx := match lastIdxOf? fixed '}' with
          | some j => j
          | none => 0
        fixed.take braceIdx ++ ['"', '}']
      else fixed
    | none => fixed
  else fixed

/-- The brace-balanced recovery path run when the strict parse fails:
rescan from the first opening brace; if a balanced span is found, parse
it; otherwise, if the text was truncated with open braces, take the span
up to the last closing brace, attempt the dangling-string repair, append
one closing brace per open brace, and parse that. -/
def repairParseL (cleaned : List Char) : Option JVal :=
  match firstIdxOf? cleaned '{' with
  | none => none
  | some startIdx =>
    let st := braceScan (cleaned.drop startIdx) startIdx 0 false false none
    match st.endIdx with
    | some e => jsonParseL ((cleaned.take (e + 1)).drop startIdx)
    | none =>
      match st.lastValid with
      | some lv =>
        if 0 < st.braceCount then
          let fixed := fixUnterminatedJson ((cleaned.take (lv + 1)).drop startIdx)
          jsonParseL (fixed ++ List.replicate st.braceCount.toNat '}')
        else none
      | none => none

/-- `x || []`: the value when truthy, an empty array when the property is
absent or falsy. -/
def orEmptyArr (v : Option JVal) : JVal :=
  match v with
  | some x => if jsTruthy x then x else .arr []
  | none => .arr []

/-- One defaulting assignment `parsed.k = parsed.k || []`. -/
def defaultSeqField (p : JVal) (k : String) : JVal :=
  jsSet p k (orEmptyArr (jsGet p k))

/-- The four defaulting assignments for the optional sequence fields, in
source order. -/
def normalizeSeqFields (p : JVal) : JVal :=
  defaultSeqField
    (defaultSeqField
      (defaultSeqField
        (defaultSeqField p "strengths")
        "improvements")
      "best_practices")
    "resources"

/-- The mandatory-field validation:
`typeof parsed.overall_score === 'number' && parsed.scores && parsed.summary`
(the negation of the throwing condition). -/
def mandatoryOk (p : JVal) : Bool :=
  jsIsNumberOpt (jsGet p "overall_score") &&
  jsTruthyOpt (jsGet p "scores") && jsTruthyOpt (jsGet p "summary")

/-- The tail of the `try` block after a successful parse: the
typeof-object check, the sequence-field defaulting, and the
mandatory-field validation; `none` models a throw (caught into the
fallback). -/
def finalizeParsed (parsed : JVal) : Option JVal :=
  if jsTypeofObject parsed then
    let p := normalizeSeqFields parsed
    if mandatoryOk p then some p else none
  else none

/-- Clean the raw text, then strict parse with brace-balanced recovery on
failure; `none` models reaching a throw. -/
def pipelineParseL (cs : List Char) : Option JVal :=
  let cleaned := cleanInputL cs
  match jsonParseL cleaned with
  | some p => some p
  | none => repairParseL cleaned

/-- String-level wrapper for the parse-and-recover pipeline. -/
def pipelineParse (s : String) : Option JVal :=
  pipelineParseL s.data

/-- The whole `try` block of `parseAIResponse`: `none` models any throw. -/
def tryParseAIResponse (s : String) : Option JVal :=
  (pipelineParse s).bind finalizeParsed

/-- The fallback record returned by the `catch` block. -/
def fallbackRecord : JVal :=
  .obj [("overall_score", .num 50),
        ("scores", .obj [("readability", .num 5), ("efficiency", .num 5),
                          ("maintainability", .num 5), ("security", .num 5)]),
        ("summary", .str "Unable to complete automated evaluation. Please try again."),
        ("strengths", .arr []),
        ("improvements", .arr []),
        ("refactored_code", .str ""),
        ("best_practices", .arr []),
        ("resources", .arr [])]

/-- `parseAIResponse`: the normalized record on success, the fallback
record when any step throws. -/
def parseAIResponse (s : String) : JVal :=
  (tryParseAIResponse s).getD fallbackRecord

theorem getF_jsInsert_self (fs : List (String × JVal)) (k : String) (v : JVal) :
    getF (jsInsert fs k v) k = some v := by
  induction fs with
  | nil => simp [jsInsert, getF]
  | cons hd tl ih =>
    obtain ⟨k', v'⟩ := hd
    by_cases h : k' = k
    · simp [jsInsert, getF, h]
    · simp [jsInsert, getF, h, ih]

theorem getF_jsInsert_other (fs : List (String × JVal)) (k k' : String) (v : JVal)
    (h : k' ≠ k) : getF (jsInsert fs k' v) k = getF fs k := by
  induction fs with
  | nil => simp [jsInsert, getF, h]
  | cons hd tl ih =>
    obtain ⟨k₀, v₀⟩ := hd
    by_cases h0 : k₀ = k'
    · subst h0
      simp [jsInsert, getF, h]
    · simp only [jsInsert, if_neg h0, getF]
      by_cases h1 : k₀ = k
      · simp [h1]
      · simp [h1, ih]

theorem jsGet_defaultSeqField_self (fs : List (String × JVal)) (k : String) :
    jsGet (defaultSeqField (JVal.obj fs) k) k = some (orEmptyArr (getF fs k)) := by
  simp only [defaultSeqField, jsGet, jsSet]
  exact getF_jsInsert_self fs k _

theorem jsGet_defaultSeqField_other (p : JVal) (k k' : String) (h : k' ≠ k) :
    jsGet (defaultSeqField p k') k = jsGet p k := by
  cases p with
  | obj fs =>
    simp only [defaultSeqField, jsGet, jsSet]
    exact getF_jsInsert_other fs k k' _ h
  | null => rfl
  | bool b => rfl
  | num q => rfl
  | str s => rfl
  | arr xs => rfl

theorem jsTypeofObject_defaultSeqField (p : JVal) (k : String) :
    jsTypeofObject (defaultSeqField p k) = jsTypeofObject p := by
  cases p <;> rfl

theorem jsTypeofObject_normalizeSeqFields (p : JVal) :
    jsTypeofObject (normalizeSeqFields p) = jsTypeofObject p := by
  simp [normalizeSeqFields, jsTypeofObject_defaultSeqField]

theorem jsGet_normalizeSeqFields_other (p : JVal) (k : String)
    (h1 : k ≠ "strengths") (h2 : k ≠ "improvements")
    (h3 : k ≠ "best_practices") (h4 : k ≠ "resources") :
    jsGet (normalizeSeqFields p) k = jsGet p k := by
  simp only [normalizeSeqFields]
  rw [jsGet_defaultSeqField_other _ _ _ (Ne.symm h4),
    jsGet_defaultSeqField_other _ _ _ (Ne.symm h3),
    jsGet_defaultSeqField_other _ _ _ (Ne.symm h2),
    jsGet_defaultSeqField_other _ _ _ (Ne.symm h1)]

theorem jsGet_normalizeSeqFields_strengths (fs : List (String × JVal)) :
    jsGet (normalizeSeqFields (JVal.obj fs)) "strengths" =
      some (orEmptyArr (getF fs "strengths")) := by
  simp only [normalizeSeqFields, defaultSeqField, jsGet, jsSet]
  rw [getF_jsInsert_other _ _ _ _ (by decide : ("resources" : String) ≠ "strengths"),
    getF_jsInsert_other _ _ _ _ (by decide : ("best_practices" : String) ≠ "strengths"),
    getF_jsInsert_other _ _ _ _ (by decide : ("improvements" : String) ≠ "strengths"),
    getF_jsInsert_self]

theorem jsGet_normalizeSeqFields_improvements (fs : List (String × JVal)) :
    jsGet (normalizeSeqFields (JVal.obj fs)) "improvements" =
      some (orEmptyArr (getF fs "improvements")) := by
  simp only [normalizeSeqFields, defaultSeqField, jsGet, jsSet]
  rw [getF_jsInsert_other _ _ _ _ (by decide : ("resources" : String) ≠ "improvements"),
    getF_jsInsert_other _ _ _ _ (by decide : ("best_practices" : String) ≠ "improvements"),
    getF_jsInsert_self,
    getF_jsInsert_other _ _ _ _ (by decide : ("strengths" : String) ≠ "improvements")]

theorem jsGet_normalizeSeqFields_best_practices (fs : List (String × JVal)) :
    jsGet (normalizeSeqFields (JVal.obj fs)) "best_practices" =
      some (orEmptyArr (getF fs "best_practices")) := by
  simp only [normalizeSeqFields, defaultSeqField, jsGet, jsSet]
  rw [getF_jsInsert_other _ _ _ _ (by decide : ("resources" : String) ≠ "best_practices"),
    getF_jsInsert_self,
    getF_jsInsert_other _ _ _ _ (by decide : ("improvements" : String) ≠ "best_practices"),
    getF_jsInsert_other _ _ _ _ (by decide : ("strengths" : String) ≠ "best_practices")]

theorem jsGet_normalizeSeqFields_resources (fs : List (String × JVal)) :
    jsGet (normalizeSeqFields (JVal.obj fs)) "resources" =
      some (orEmptyArr (getF fs "resources")) := by
  simp only [normalizeSeqFields, defaultSeqField, jsGet, jsSet]
  rw [getF_jsInsert_self,
    getF_jsInsert_other _ _ _ _ (by decide : ("best_practices" : String) ≠ "resources"),
    getF_jsInsert_other _ _ _ _ (by decide : ("improvements" : String) ≠ "resources"),
    getF_jsInsert_other _ _ _ _ (by decide : ("strengths" : String) ≠ "resources")]

theorem mandatoryOk_normalizeSeqFields (p : JVal) :
    mandatoryOk (normalizeSeqFields p) = mandatoryOk p := by
  unfold mandatoryOk
  rw [jsGet_normalizeSeqFields_other p "overall_score"
      (by decide) (by decide) (by decide) (by decide),
    jsGet_normalizeSeqFields_other p "scores"
      (by decide) (by decide) (by decide) (by decide),
    jsGet_normalizeSeqFields_other p "summary"
      (by decide) (by decide) (by decide) (by decide)]

theorem mandatoryOk_obj (p : JVal) (hm : mandatoryOk p = true) :
    ∃ fs, p = JVal.obj fs := by
  cases p with
  | obj fs => exact ⟨fs, rfl⟩
  | null => simp [mandatoryOk, jsGet, jsIsNumberOpt] at hm
  | bool b => simp [mandatoryOk, jsGet, jsIsNumberOpt] at hm
  | num q => simp [mandatoryOk, jsGet, jsIsNumberOpt] at hm
  | str s => simp [mandatoryOk, jsGet, jsIsNumberOpt] at hm
  | arr xs => simp [mandatoryOk, jsGet, jsIsNumberOpt] at hm

theorem finalizeParsed_eq_none (p : JVal) (h : mandatoryOk p = false) :
    finalizeParsed p = none := by
  unfold finalizeParsed
  by_cases ht : jsTypeofObject p = true
  · rw [if_pos ht]
    simp [mandatoryOk_normalizeSeqFields, h]
  · rw [if_neg ht]

theorem finalizeParsed_eq_some (p : JVal) (ht : jsTypeofObject p = true)
    (hm : mandatoryOk p = true) :
    finalizeParsed p = some (normalizeSeqFields p) := by
  unfold finalizeParsed
  simp [ht, mandatoryOk_normalizeSeqFields, hm]

/-- The structural guarantee the normalizer provides on every record it
returns: it is a JSON object whose `overall_score` is a number, whose
`scores` and `summary` are present and truthy, and whose four sequence
fields are present. -/
def structurallyValid (v : JVal) : Bool :=
  jsTypeofObject v && mandatoryOk v &&
  (jsGet v "strengths").isSome && (jsGet v "improvements").isSome &&
  (jsGet v "best_practices").isSome && (jsGet v "resources").isSome

theorem finalizeParsed_structurallyValid (p v : JVal) (h : finalizeParsed p = some v) :
    structurallyValid v = true := by
  unfold finalizeParsed at h
  by_cases ht : jsTypeofObject p = true
  · rw [if_pos ht] at h
    by_cases hm : mandatoryOk (normalizeSeqFields p) = true
    · rw [if_pos hm] at h
      obtain rfl : normalizeSeqFields p = v := Option.some.inj h
      have hmp : mandatoryOk p = true := by
        rw [← mandatoryOk_normalizeSeqFields]; exact hm
      obtain ⟨fs, rfl⟩ := mandatoryOk_obj p hmp
      simp [structurallyValid, jsTypeofObject_normalizeSeqFields, ht, hm,
        jsGet_normalizeSeqFields_strengths, jsGet_normalizeSeqFields_improvements,
        jsGet_normalizeSeqFields_best_practices, jsGet_normalizeSeqFields_resources]
    · rw [if_neg hm] at h
      exact absurd h (by simp)
  · rw [if_neg ht] at h
    exact absurd h (by simp)

theorem tryParseAIResponse_eq_some (s : String) (v : JVal) :
    tryParseAIResponse s = some v ↔
      ∃ p, pipelineParse s = some p ∧ finalizeParsed p = some v := by
  unfold tryParseAIResponse
  exact Option.bind_eq_some

theorem parseAIResponse_of_some (s : String) (v : JVal)
    (h : tryParseAIResponse s = some v) : parseAIResponse s = v := by
  simp [parseAIResponse, h]

theorem parseAIResponse_of_none (s : String)
    (h : tryParseAIResponse s = none) : parseAIResponse s = fallbackRecord := by
  simp [parseAIResponse, h]

theorem finalizeParsed_inv (p v : JVal) (h : finalizeParsed p = some v) :
    v = normalizeSeqFields p ∧ jsTypeofObject p = true ∧ mandatoryOk p = true := by
  unfold finalizeParsed at h
  by_cases ht : jsTypeofObject p = true
  · rw [if_pos ht] at h
    by_cases hm : mandatoryOk (normalizeSeqFields p) = true
    · rw [if_pos hm] at h
      exact ⟨(Option.some.inj h).symm, ht, by
        rw [← mandatoryOk_normalizeSeqFields]; exact hm⟩
    · rw [if_neg hm] at h
      exact absurd h (by simp)
  · rw [if_neg ht] at h
    exact absurd h (by simp)

/-- The truncated-response input named by the specification: the final
`summary` field is an unterminated string. -/
def c3Input : String :=
  "\x7b\"overall_score\":80,\"scores\":\x7b\"readability\":8,\"efficiency\":7,\"maintainability\":8,\"security\":6\x7d,\"summary\":\"Good overall but security needs wo"

/-! ### Claims C1, C2, C3, C5 -/

/-- C1: the normalizer is total: for every input string, `parseAIResponse`
returns a structurally valid evaluation record and never propagates an
error; whenever the try-block throws (modelled as `none`), the returned
record is exactly the fallback record. -/
theorem c1_parseAIResponse_total (s : String) :
    structurallyValid (parseAIResponse s) = true ∧
    (tryParseAIResponse s = none → parseAIResponse s = fallbackRecord) := by
  cases h : tryParseAIResponse s with
  | none =>
    refine ⟨?_, fun _ => parseAIResponse_of_none s h⟩
    rw [parseAIResponse_of_none s h]
    decide
  | some v =>
    refine ⟨?_, fun hn => Option.noConfusion hn⟩
    rw [parseAIResponse_of_some s v h]
    obtain ⟨p, _, hf⟩ := (tryParseAIResponse_eq_some s v).mp h
    exact finalizeParsed_structurallyValid p v hf

theorem c1_parseAIResponse_total_witness :
    structurallyValid (parseAIResponse "the model returned no json") = true ∧
    parseAIResponse "the model returned no json" = fallbackRecord :=
  ⟨(c1_parseAIResponse_total "the model returned no json").1,
   (c1_parseAIResponse_total "the model returned no json").2 (by decide)⟩

/-- C2 (amended): when the cleaned text parses to a value `p`, the record
is replaced by the fallback record — spelled out field by field — exactly
when the code's validation fails (`overall_score` not of number type, or
`scores` absent or falsy, or `summary` absent or falsy); when the
validation passes, the three mandatory fields of the returned record equal
the parsed values exactly. The detailed types of `scores` and `summary`
are not checked beyond truthiness. -/
theorem c2_mandatory_field_validation (s : String) (p : JVal)
    (hp : pipelineParse s = some p) :
    (mandatoryOk p = false →
      parseAIResponse s = JVal.obj [("overall_score", JVal.num 50),
        ("scores", JVal.obj [("readability", JVal.num 5), ("efficiency", JVal.num 5),
          ("maintainability", JVal.num 5), ("security", JVal.num 5)]),
        ("summary", JVal.str "Unable to complete automated evaluation. Please try again."),
        ("strengths", JVal.arr []),
        ("improvements", JVal.arr []),
        ("refactored_code", JVal.str ""),
        ("best_practices", JVal.arr []),
        ("resources", JVal.arr [])]) ∧
    (mandatoryOk p = true →
      jsGet (parseAIResponse s) "overall_score" = jsGet p "overall_score" ∧
      jsGet (parseAIResponse s) "scores" = jsGet p "scores" ∧
      jsGet (parseAIResponse s) "summary" = jsGet p "summary") := by
  constructor
  · intro hm
    have ht : tryParseAIResponse s = none := by
      unfold tryParseAIResponse
      rw [hp]
      exact finalizeParsed_eq_none p hm
    rw [parseAIResponse_of_none s ht]
    rfl
  · intro hm
    obtain ⟨fs, rfl⟩ := mandatoryOk_obj p hm
    have hf := finalizeParsed_eq_some (JVal.obj fs) rfl hm
    have hs : tryParseAIResponse s = some (normalizeSeqFields (JVal.obj fs)) := by
      unfold tryParseAIResponse
      rw [hp]
      exact hf
    rw [parseAIResponse_of_some _ _ hs]
    exact ⟨jsGet_normalizeSeqFields_other _ _ (by decide) (by decide) (by decide) (by decide),
      jsGet_normalizeSeqFields_other _ _ (by decide) (by decide) (by decide) (by decide),
      jsGet_normalizeSeqFields_other _ _ (by decide) (by decide) (by decide) (by decide)⟩

theorem c2_mandatory_field_validation_witness :
    pipelineParse "\x7b\"overall_score\":80,\"scores\":\x7b\"readability\":8\x7d,\"summary\":\"ok\"\x7d" =
      some (JVal.obj [("overall_score", JVal.num 80),
        ("scores", JVal.obj [("readability", JVal.num 8)]),
        ("summary", JVal.str "ok")]) ∧
    (jsGet (parseAIResponse "\x7b\"overall_score\":80,\"scores\":\x7b\"readability\":8\x7d,\"summary\":\"ok\"\x7d") "overall_score" =
        jsGet (JVal.obj [("overall_score", JVal.num 80),
          ("scores", JVal.obj [("readability", JVal.num 8)]),
          ("summary", JVal.str "ok")]) "overall_score" ∧
      jsGet (parseAIResponse "\x7b\"overall_score\":80,\"scores\":\x7b\"readability\":8\x7d,\"summary\":\"ok\"\x7d") "scores" =
        jsGet (JVal.obj [("overall_score", JVal.num 80),
          ("scores", JVal.obj [("readability", JVal.num 8)]),
          ("summary", JVal.str "ok")]) "scores" ∧
      jsGet (parseAIResponse "\x7b\"overall_score\":80,\"scores\":\x7b\"readability\":8\x7d,\"summary\":\"ok\"\x7d") "summary" =
        jsGet (JVal.obj [("overall_score", JVal.num 80),
          ("scores", JVal.obj [("readability", JVal.num 8)]),
          ("summary", JVal.str "ok")]) "summary") :=
  ⟨by decide,
   (c2_mandatory_field_validation
      "\x7b\"overall_score\":80,\"scores\":\x7b\"readability\":8\x7d,\"summary\":\"ok\"\x7d"
      (JVal.obj [("overall_score", JVal.num 80),
        ("scores", JVal.obj [("readability", JVal.num 8)]),
        ("summary", JVal.str "ok")])
      (by decide)).2 (by decide)⟩

/-- C2 counterexample to the claim as frozen: in the input below all three
mandatory fields are present but `scores` and `summary` are mistyped
(numbers rather than a mapping and a string); the claim requires the
fallback record, yet the code accepts the parse — the returned record
keeps `summary` equal to the number `1` and is not the fallback record. -/
theorem c2_mistyped_not_fallback :
    jsGet (parseAIResponse "\x7b\"overall_score\":1,\"scores\":1,\"summary\":1\x7d") "summary" =
      some (JVal.num 1) ∧
    parseAIResponse "\x7b\"overall_score\":1,\"scores\":1,\"summary\":1\x7d" ≠ fallbackRecord := by
  constructor
  · decide
  · decide

/-- C3 counterexample to the claim as frozen: on the specification's
truncated input the mandatory fields are not preserved — `overall_score`
comes back as the fallback's 50, not 80. -/
theorem c3_overall_score_not_preserved :
    jsGet (parseAIResponse c3Input) "overall_score" ≠ some (JVal.num 80) := by
  decide

/-- C3 (amended): on the specification's truncated input the normalizer
never throws, but it returns exactly the fallback record: the dangling
`summary` field is discarded by the first-brace/last-brace slice (the last
closing brace precedes it), the repaired object therefore lacks `summary`,
and validation rejects it. -/
theorem c3_truncated_input_fallback :
    parseAIResponse c3Input = fallbackRecord ∧
    jsGet (parseAIResponse c3Input) "overall_score" = some (JVal.num 50) := by
  constructor
  · decide
  · decide

/-- A markdown code fence wrapping of a payload as the model emits it:
three backquotes, an optional lowercase `json` language tag, a newline,
the payload, a newline and three closing backquotes. -/
def fenceWrap (tag : Bool) (s : String) : String :=
  ⟨[backquote, backquote, backquote] ++ (if tag then ['j', 's', 'o', 'n'] else []) ++
    '\n' :: s.data ++ '\n' :: [backquote, backquote, backquote]⟩

theorem dropWhile_cons_false (p : Char → Bool) (c : Char) (l : List Char)
    (h : p c = false) : (c :: l).dropWhile p = c :: l := by
  rw [List.dropWhile_cons]
  simp [h]

theorem jsTrimL_eq_self (cs : List Char) (h1 : cs.dropWhile isJsTrimWs = cs)
    (h2 : cs.reverse.dropWhile isJsTrimWs = cs.reverse) : jsTrimL cs = cs := by
  unfold jsTrimL
  rw [h1, h2, List.reverse_reverse]

theorem parseAIResponse_congr_clean (cs₁ cs₂ : List Char)
    (h : cleanInputL cs₁ = cleanInputL cs₂) :
    parseAIResponse ⟨cs₁⟩ = parseAIResponse ⟨cs₂⟩ := by
  unfold parseAIResponse tryParseAIResponse pipelineParse pipelineParseL
  rw [show (String.mk cs₁).data = cs₁ from rfl, show (String.mk cs₂).data = cs₂ from rfl, h]

theorem stripFencesL_append_fence (j : List Char) :
    (if (j ++ ['\n', backquote, backquote, backquote]).drop
          ((j ++ ['\n', backquote, backquote, backquote]).length - 4) =
        ['\n', backquote, backquote, backquote] then
      (j ++ ['\n', backquote, backquote, backquote]).take
        ((j ++ ['\n', backquote, backquote, backquote]).length - 4)
    else j ++ ['\n', backquote, backquote, backquote]) = j := by
  have hlen : (j ++ ['\n', backquote, backquote, backquote]).length - 4 = j.length := by
    simp
  rw [hlen, List.drop_left j, if_pos rfl, List.take_left j]

theorem cleanInputL_braces (mid : List Char) :
    cleanInputL ('{' :: (mid ++ ['}'])) = sliceBracesL ('{' :: (mid ++ ['}'])) := by
  unfold cleanInputL
  have htrim : jsTrimL ('{' :: (mid ++ ['}'])) = '{' :: (mid ++ ['}']) := by
    apply jsTrimL_eq_self
    · exact dropWhile_cons_false _ _ _ (by decide)
    · rw [show ('{' :: (mid ++ ['}'])).reverse = '}' :: (mid.reverse ++ ['{']) by simp]
      exact dropWhile_cons_false _ _ _ (by decide)
  rw [htrim]
  have hstrip : stripFencesL ('{' :: (mid ++ ['}'])) = '{' :: (mid ++ ['}']) := by
    unfold stripFencesL
    rw [if_neg]
    intro h
    rw [show List.take 3 ('{' :: (mid ++ ['}'])) = '{' :: List.take 2 (mid ++ ['}']) from rfl]
      at h
    exact absurd (List.head_eq_of_cons_eq h) (by decide)
  rw [hstrip]

theorem cleanInputL_fenceWrap (tag : Bool) (mid : List Char) :
    cleanInputL (fenceWrap tag ⟨'{' :: (mid ++ ['}'])⟩).data =
      sliceBracesL ('{' :: (mid ++ ['}'])) := by
  cases tag with
  | true =>
    show cleanInputL (backquote :: backquote :: backquote :: 'j' :: 's' :: 'o' :: 'n' ::
      '\n' :: (('{' :: (mid ++ ['}'])) ++ '\n' :: [backquote, backquote, backquote])) = _
    unfold cleanInputL
    have htrim := jsTrimL_eq_self (backquote :: backquote :: backquote :: 'j' :: 's' :: 'o' ::
      'n' :: '\n' :: (('{' :: (mid ++ ['}'])) ++ '\n' :: [backquote, backquote, backquote]))
      (dropWhile_cons_false _ _ _ (by decide)) ?hrev
    case hrev =>
      rw [show (backquote :: backquote :: backquote :: 'j' :: 's' :: 'o' :: 'n' :: '\n' ::
        (('{' :: (mid ++ ['}'])) ++ '\n' :: [backquote, backquote, backquote])).reverse =
          backquote :: (backquote :: backquote :: '\n' :: '}' :: (mid.reverse ++
            ['{', '\n', 'n', 'o', 's', 'j', backquote, backquote, backquote])) by simp]
      exact dropWhile_cons_false _ _ _ (by decide)
    rw [htrim]
    have hstrip : stripFencesL (backquote :: backquote :: backquote :: 'j' :: 's' :: 'o' ::
        'n' :: '\n' :: (('{' :: (mid ++ ['}'])) ++ '\n' :: [backquote, backquote, backquote])) =
        '{' :: (mid ++ ['}']) :=
      stripFencesL_append_fence ('{' :: (mid ++ ['}']))
    rw [hstrip]
  | false =>
    show cleanInputL (backquote :: backquote :: backquote ::
      '\n' :: (('{' :: (mid ++ ['}'])) ++ '\n' :: [backquote, backquote, backquote])) = _
    unfold cleanInputL
    have htrim := jsTrimL_eq_self (backquote :: backquote :: backquote ::
      '\n' :: (('{' :: (mid ++ ['}'])) ++ '\n' :: [backquote, backquote, backquote]))
      (dropWhile_cons_false _ _ _ (by decide)) ?hrev
    case hrev =>
      rw [show (backquote :: backquote :: backquote :: '\n' ::
        (('{' :: (mid ++ ['}'])) ++ '\n' :: [backquote, backquote, backquote])).reverse =
          backquote :: (backquote :: backquote :: '\n' :: '}' :: (mid.reverse ++
            ['{', '\n', backquote, backquote, backquote])) by simp]
      exact dropWhile_cons_false _ _ _ (by decide)
    rw [htrim]
    have hstrip : stripFencesL (backquote :: backquote :: backquote ::
        '\n' :: (('{' :: (mid ++ ['}'])) ++ '\n' :: [backquote, backquote, backquote])) =
        '{' :: (mid ++ ['}']) :=
      stripFencesL_append_fence ('{' :: (mid ++ ['}']))
    rw [hstrip]

/-- C4: fence-stripping invariance: a JSON object text wrapped in a
markdown fenced code block, with or without the `json` language tag on the
opening fence, normalizes to exactly the same record as the bare object
text, for every object text and in particular for every valid JSON
object. -/
theorem c4_fence_stripping_invariance (mid : List Char) (tag : Bool) :
    parseAIResponse (fenceWrap tag ⟨'{' :: (mid ++ ['}'])⟩) =
      parseAIResponse ⟨'{' :: (mid ++ ['}'])⟩ := by
  have h := (cleanInputL_fenceWrap tag mid).trans (cleanInputL_braces mid).symm
  exact parseAIResponse_congr_clean _ _ h

/-- C5 (amended): for an otherwise-valid parse, each of the four optional
sequence fields of the returned record is the parsed value when that value
is truthy, and the empty array both when the key is absent and when its
value is falsy (`null`, `false`, `0` or the empty string) — the `x || []`
defaulting replaces falsy present values too. No deeper validation of
item shapes occurs. -/
theorem c5_optional_sequence_defaulting (s : String) (p v : JVal)
    (hp : pipelineParse s = some p) (hv : tryParseAIResponse s = some v) :
    parseAIResponse s = v ∧
    jsGet v "strengths" = some (orEmptyArr (jsGet p "strengths")) ∧
    jsGet v "improvements" = some (orEmptyArr (jsGet p "improvements")) ∧
    jsGet v "best_practices" = some (orEmptyArr (jsGet p "best_practices")) ∧
    jsGet v "resources" = some (orEmptyArr (jsGet p "resources")) := by
  obtain ⟨p', hp', hf⟩ := (tryParseAIResponse_eq_some s v).mp hv
  rw [hp] at hp'
  obtain rfl : p = p' := Option.some.inj hp'
  obtain ⟨hveq, _, hm⟩ := finalizeParsed_inv p v hf
  obtain ⟨fs, rfl⟩ := mandatoryOk_obj p hm
  subst hveq
  exact ⟨parseAIResponse_of_some s _ hv,
    jsGet_normalizeSeqFields_strengths fs,
    jsGet_normalizeSeqFields_improvements fs,
    jsGet_normalizeSeqFields_best_practices fs,
    jsGet_normalizeSeqFields_resources fs⟩

theorem c5_optional_sequence_defaulting_witness :
    pipelineParse "\x7b\"overall_score\":2,\"scores\":\x7b\x7d,\"summary\":\"t\",\"improvements\":[3]\x7d" =
      some (JVal.obj [("overall_score", JVal.num 2), ("scores", JVal.obj []),
        ("summary", JVal.str "t"), ("improvements", JVal.arr [JVal.num 3])]) ∧
    tryParseAIResponse "\x7b\"overall_score\":2,\"scores\":\x7b\x7d,\"summary\":\"t\",\"improvements\":[3]\x7d" =
      some (JVal.obj [("overall_score", JVal.num 2), ("scores", JVal.obj []),
        ("summary", JVal.str "t"), ("improvements", JVal.arr [JVal.num 3]),
        ("strengths", JVal.arr []), ("best_practices", JVal.arr []),
        ("resources", JVal.arr [])]) ∧
    (parseAIResponse "\x7b\"overall_score\":2,\"scores\":\x7b\x7d,\"summary\":\"t\",\"improvements\":[3]\x7d" =
      JVal.obj [("overall_score", JVal.num 2), ("scores", JVal.obj []),
        ("summary", JVal.str "t"), ("improvements", JVal.arr [JVal.num 3]),
        ("strengths", JVal.arr []), ("best_practices", JVal.arr []),
        ("resources", JVal.arr [])] ∧
      jsGet (JVal.obj [("overall_score", JVal.num 2), ("scores", JVal.obj []),
        ("summary", JVal.str "t"), ("improvements", JVal.arr [JVal.num 3]),
        ("strengths", JVal.arr []), ("best_practices", JVal.arr []),
        ("resources", JVal.arr [])]) "strengths" =
        some (orEmptyArr (jsGet (JVal.obj [("overall_score", JVal.num 2),
          ("scores", JVal.obj []), ("summary", JVal.str "t"),
          ("improvements", JVal.arr [JVal.num 3])]) "strengths")) ∧
      jsGet (JVal.obj [("overall_score", JVal.num 2), ("scores", JVal.obj []),
        ("summary", JVal.str "t"), ("improvements", JVal.arr [JVal.num 3]),
        ("strengths", JVal.arr []), ("best_practices", JVal.arr []),
        ("resources", JVal.arr [])]) "improvements" =
        some (orEmptyArr (jsGet (JVal.obj [("overall_score", JVal.num 2),
          ("scores", JVal.obj []), ("summary", JVal.str "t"),
          ("improvements", JVal.arr [JVal.num 3])]) "improvements")) ∧
      jsGet (JVal.obj [("overall_score", JVal.num 2), ("scores", JVal.obj []),
        ("summary", JVal.str "t"), ("improvements", JVal.arr [JVal.num 3]),
        ("strengths", JVal.arr []), ("best_practices", JVal.arr []),
        ("resources", JVal.arr [])]) "best_practices" =
        some (orEmptyArr (jsGet (JVal.obj [("overall_score", JVal.num 2),
          ("scores", JVal.obj []), ("summary", JVal.str "t"),
          ("improvements", JVal.arr [JVal.num 3])]) "best_practices")) ∧
      jsGet (JVal.obj [("overall_score", JVal.num 2), ("scores", JVal.obj []),
        ("summary", JVal.str "t"), ("improvements", JVal.arr [JVal.num 3]),
        ("strengths", JVal.arr []), ("best_practices", JVal.arr []),
        ("resources", JVal.arr [])]) "resources" =
        some (orEmptyArr (jsGet (JVal.obj [("overall_score", JVal.num 2),
          ("scores", JVal.obj []), ("summary", JVal.str "t"),
          ("improvements", JVal.arr [JVal.num 3])]) "resources"))) :=
  ⟨by decide, by decide,
   c5_optional_sequence_defaulting
     "\x7b\"overall_score\":2,\"scores\":\x7b\x7d,\"summary\":\"t\",\"improvements\":[3]\x7d"
     (JVal.obj [("overall_score", JVal.num 2), ("scores", JVal.obj []),
       ("summary", JVal.str "t"), ("improvements", JVal.arr [JVal.num 3])])
     (JVal.obj [("overall_score", JVal.num 2), ("scores", JVal.obj []),
       ("summary", JVal.str "t"), ("improvements", JVal.arr [JVal.num 3]),
       ("strengths", JVal.arr []), ("best_practices", JVal.arr []),
       ("resources", JVal.arr [])])
     (by decide) (by decide)⟩

/-- C5 counterexample to the claim as frozen: `strengths` is present in
the parsed object with value `null`, yet the returned record holds the
empty array — a present key is not passed through unchanged when its value
is falsy. -/
theorem c5_present_null_replaced :
    pipelineParse "\x7b\"overall_score\":1,\"scores\":\x7b\"readability\":1\x7d,\"summary\":\"s\",\"strengths\":null\x7d" =
      some (JVal.obj [("overall_score", JVal.num 1),
        ("scores", JVal.obj [("readability", JVal.num 1)]),
        ("summary", JVal.str "s"), ("strengths", JVal.null)]) ∧
    jsGet (parseAIResponse "\x7b\"overall_score\":1,\"scores\":\x7b\"readability\":1\x7d,\"summary\":\"s\",\"strengths\":null\x7d") "strengths" =
      some (JVal.arr []) ∧
    JVal.null ≠ JVal.arr [] := by
  refine ⟨by decide, by decide, by decide⟩

/-! ### Orchestration: deadline race, error messages, client selection

Shallow model of the asynchronous orchestration: a task either never
settles (`none`) or settles at a wall-clock offset with an outcome.
`Promise.race` picks the earlier settlement; the deadline timer of
`withEvaluationTimeout` (src/server/routes/evaluate.ts) is a task that
rejects at the configured deadline. -/

/-- Outcome of a settled promise. -/
inductive Settled (α : Type) where
  | resolved (a : α) : Settled α
  | rejected (msg : String) : Settled α
deriving DecidableEq

/-- A task: `none` never settles, `some (t, r)` settles at time `t`
milliseconds with outcome `r`. -/
def JsTask (α : Type) : Type := Option (Nat × Settled α)

/-- `Promise.race` of two tasks: the earlier settlement wins; on a tie the
first element of the raced array wins (the wrapped call is listed first in
the source). -/
def promiseRace {α : Type} (p q : JsTask α) : JsTask α :=
  match p, q with
  | none, q => q
  | some pr, none => some pr
  | some (t₁, a), some (t₂, b) => if t₁ ≤ t₂ then some (t₁, a) else some (t₂, b)

/-- `Math.round(timeoutMs / 1000)` on a natural number of milliseconds
(round half up). -/
def roundToSeconds (timeoutMs : Nat) : Nat := (timeoutMs + 500) / 1000

/-- The rejection message of the deadline timer, carrying the configured
deadline in seconds. -/
def timeoutMessage (timeoutMs : Nat) : String :=
  "Evaluation timed out after " ++ Nat.repr (roundToSeconds timeoutMs) ++
  " seconds. Please try again with a smaller snippet or retry later."

/-- The default deadline: `EVALUATION_TIMEOUT_MS` falls back to the string
`'60000'` when the environment variable is unset or empty. -/
def EVALUATION_TIMEOUT_MS_default : Nat := 60000

/-- The deadline timer: rejects at `timeoutMs` with the timeout message. -/
def timeoutPromise (α : Type) (timeoutMs : Nat) : JsTask α :=
  some (timeoutMs, .rejected (timeoutMessage timeoutMs))

/-- `withEvaluationTimeout`: the wrapped call raced against the deadline
timer. -/
def withEvaluationTimeout {α : Type} (timeoutMs : Nat) (fn : JsTask α) : JsTask α :=
  promiseRace fn (timeoutPromise α timeoutMs)

/-- Observable events of one evaluation request. -/
inductive EvEvent where
  | timerStarted : EvEvent
  | modelCallStarted : EvEvent
deriving DecidableEq

/-- Snapshot of the environment variables the evaluation reads. -/
structure EvalEnv where
  nvidiaApiKey : Option String
  nvidiaBaseUrl : Option String
deriving DecidableEq

/-- The credential guard at the top of `evaluateCodeComplete` and
`evaluateCodeStreaming`: true when `process.env.NVIDIA_API_KEY` is unset,
empty (falsy) or the placeholder value. -/
def apiKeyMissing (env : EvalEnv) : Bool :=
  match env.nvidiaApiKey with
  | none => true
  | some k => k == "" || k == "placeholder-key-missing"

/-- The configuration error thrown when the guard fails. -/
def configErrorMessage : String :=
  "NVIDIA API key is not configured. Please set NVIDIA_API_KEY in your environment variables."

/-- `evaluateCodeComplete` as a task with its event trace: the credential
check runs first and rejects synchronously (time 0) without starting the
model call; past the guard the model call is started and its settlement is
the outcome (the catch-block message mapping is modelled separately). -/
def evaluateCodeCompleteRun (α : Type) (env : EvalEnv) (modelCall : JsTask α) :
    List EvEvent × JsTask α :=
  if apiKeyMissing env then ([], some (0, .rejected configErrorMessage))
  else ([EvEvent.modelCallStarted], modelCall)

/-- The route's `withEvaluationTimeout(() => evaluateCodeComplete(task))`:
the promise executor of the deadline timer runs (and schedules the timer)
when `withEvaluationTimeout` is entered, before the wrapped function is
invoked, so every request's trace begins with `timerStarted`. -/
def routeEvaluateRun (α : Type) (env : EvalEnv) (timeoutMs : Nat)
    (modelCall : JsTask α) : List EvEvent × JsTask α :=
  let fnRun := evaluateCodeCompleteRun α env modelCall
  (EvEvent.timerStarted :: fnRun.1, withEvaluationTimeout timeoutMs fnRun.2)

/-- A configured chat-completion client: the credential and base URL it
was constructed with. -/
structure NvidiaClient where
  apiKey : String
  baseURL : String
deriving DecidableEq

/-- The default NVIDIA endpoint. -/
def defaultNvidiaBaseUrl : String := "https://integrate.api.nvidia.com/v1"

/-- `process.env.NVIDIA_BASE_URL || default` for a given environment. -/
def currentBaseUrl (env : EvalEnv) : String :=
  match env.nvidiaBaseUrl with
  | some b => if b = "" then defaultNvidiaBaseUrl else b
  | none => defaultNvidiaBaseUrl

/-- The module-level `nvidiaClient`, built at import time with a
placeholder key when the credential is unset or empty. -/
def moduleNvidiaClient (importEnv : EvalEnv) : NvidiaClient :=
  ⟨match importEnv.nvidiaApiKey with
    | some k => if k = "" then "placeholder-key-missing" else k
    | none => "placeholder-key-missing",
   currentBaseUrl importEnv⟩

/-- `getNvidiaClient()`: throws when the current credential is unset,
empty or the placeholder, else returns a fresh client from the current
environment. -/
def getNvidiaClient (env : EvalEnv) : Except String NvidiaClient :=
  match env.nvidiaApiKey with
  | none => .error "NVIDIA_API_KEY is not configured"
  | some k =>
    if k == "" || k == "placeholder-key-missing" then
      .error "NVIDIA_API_KEY is not configured"
    else .ok ⟨k, currentBaseUrl env⟩

/-- The client-selection block of both evaluation functions: try
`getNvidiaClient()`, and fall back to the module-level default client when
it throws. -/
def selectClient (importEnv env : EvalEnv) : NvidiaClient :=
  match getNvidiaClient env with
  | .ok c => c
  | .error _ => moduleNvidiaClient importEnv

/-- JS `String.prototype.substring(a, b)`: clamp both indices into
`[0, length]` and swap them when out of order. -/
def jsSubstring (s : String) (a b : Int) : String :=
  let x := min (max a 0).toNat s.length
  let y := min (max b 0).toNat s.length
  ⟨(s.data.take (max x y)).drop (min x y)⟩

/-- One-argument `substring(a)`: up to the end of the string. -/
def jsSubstringFrom (s : String) (a : Int) : String :=
  jsSubstring s a (s.length : Int)

/-- The redacted credential fragment of the complete variant's 401
message: a 10-character prefix, an ellipsis, a 4-character suffix and the
length. -/
def credFragment (apiKey : String) : String :=
  jsSubstring apiKey 0 10 ++ "..." ++
  jsSubstringFrom apiKey ((apiKey.length : Int) - 4) ++
  " (" ++ Nat.repr apiKey.length ++ " chars)"

/-- The 401 branch of `evaluateCodeComplete`'s catch block. -/
def authFailed401MessageComplete (apiKey : String) : String :=
  "NVIDIA API authentication failed (401). Please verify your NVIDIA_API_KEY is correct. Current key: " ++
  (if apiKey = "" then "NOT SET" else credFragment apiKey) ++
  ". Check your .env.local file and ensure the key matches the one that works in Python."

/-- The 401 branch of `evaluateCodeStreaming`'s catch block: a constant
message with no credential fragment. -/
def authFailed401MessageStreaming : String :=
  "NVIDIA API authentication failed. Please verify your NVIDIA_API_KEY is valid and not expired. Check your .env.local file."

/-- `${error.status || 'unknown'}` rendered into the fallback message. -/
def statusText (status : Option Int) : String :=
  match status with
  | some s => if s = 0 then "unknown" else s.repr
  | none => "unknown"

/-- The error-message mapping of `evaluateCodeComplete`'s catch block. -/
def nvidiaErrorMessageComplete (apiKey : String) (model : String)
    (status : Option Int) (errMsg : Option String) : String :=
  if status = some 401 then authFailed401MessageComplete apiKey
  else if status = some 403 then
    "NVIDIA API access forbidden (403). Your API key may not have permission to access this model. Verify your API key has access to the model: " ++ model
  else if status = some 429 then
    "NVIDIA API rate limit exceeded (429). Please try again later."
  else
    match errMsg with
    | some m =>
      if m = "" then "NVIDIA API request failed with status " ++ statusText status
      else "NVIDIA API error: " ++ m
    | none => "NVIDIA API request failed with status " ++ statusText status

/-- The error-message mapping of `evaluateCodeStreaming`'s catch block. -/
def nvidiaErrorMessageStreaming (status : Option Int) (errMsg : Option String) : String :=
  if status = some 401 then authFailed401MessageStreaming
  else if status = some 403 then
    "NVIDIA API access forbidden. Your API key may not have permission to access this model."
  else if status = some 429 then
    "NVIDIA API rate limit exceeded. Please try again later."
  else
    match errMsg with
    | some m =>
      if m = "" then "NVIDIA API request failed with status " ++ statusText status
      else "NVIDIA API error: " ++ m
    | none => "NVIDIA API request failed with status " ++ statusText status

/-- The default model identifier (`NVIDIA_MODEL` fallback). -/
def AI_CONFIG_model_default : String := "moonshotai/kimi-k2-instruct-0905"

/-- The character alphabet of an API credential: alphanumerics, dash and
underscore. -/
def isCredChar (c : Char) : Bool := c.isAlphanum || c == '-' || c == '_'

/-- Length of the longest run of credential characters in the list,
continuing a current run of length `cur`. -/
def credRun : List Char → Nat → Nat
  | [], cur => cur
  | c :: rest, cur =>
    if isCredChar c then credRun rest (cur + 1) else max cur (credRun rest 0)

/-- Substring occurrence: does `needle` occur contiguously in `hay`? -/
def containsSub (hay needle : List Char) : Bool :=
  (List.range (hay.length + 1)).any (fun i => needle.isPrefixOf (hay.drop i))

theorem credRun_le (cs : List Char) : ∀ cur, credRun cs cur ≤ cur + cs.length := by
  induction cs with
  | nil => intro cur; simp [credRun]
  | cons c rest ih =>
    intro cur
    cases hc : isCredChar c with
    | true =>
      have := ih (cur + 1)
      simp only [credRun, hc, if_true, List.length_cons]
      omega
    | false =>
      have := ih 0
      simp only [credRun, hc, List.length_cons]
      rw [if_neg (by simp)]
      omega

theorem credRun_ge_cur (cs : List Char) : ∀ cur, cur ≤ credRun cs cur := by
  induction cs with
  | nil => intro cur; simp [credRun]
  | cons c rest ih =>
    intro cur
    cases hc : isCredChar c with
    | true =>
      simp only [credRun, hc, if_true]
      exact le_trans (Nat.le_succ cur) (ih (cur + 1))
    | false =>
      simp only [credRun, hc]
      rw [if_neg (by simp)]
      exact le_max_left _ _

theorem credRun_mono (cs : List Char) :
    ∀ cur cur', cur ≤ cur' → credRun cs cur ≤ credRun cs cur' := by
  induction cs with
  | nil => intro cur cur' h; simpa [credRun] using h
  | cons c rest ih =>
    intro cur cur' h
    cases hc : isCredChar c with
    | true =>
      simp only [credRun, hc, if_true]
      exact ih _ _ (Nat.succ_le_succ h)
    | false =>
      simp only [credRun, hc]
      rw [if_neg (by simp), if_neg (by simp)]
      exact max_le_max h (le_refl _)

theorem credRun_all_cred (pre : List Char) :
    ∀ (rest : List Char) (cur : Nat), (∀ c ∈ pre, isCredChar c = true) →
      cur + pre.length ≤ credRun (pre ++ rest) cur := by
  induction pre with
  | nil => intro rest cur _; simpa using credRun_ge_cur rest cur
  | cons c pre' ih =>
    intro rest cur h
    have hc : isCredChar c = true := h c (by simp)
    simp only [List.cons_append, credRun, hc, if_true, List.length_cons, List.append_eq]
    have := ih rest (cur + 1) (fun d hd => h d (by simp [hd]))
    simp only [List.append_eq] at this
    omega

theorem credRun_left (xs : List Char) :
    ∀ (t : List Char) (cur : Nat), credRun t 0 ≤ credRun (xs ++ t) cur := by
  induction xs with
  | nil =>
    intro t cur
    simp only [List.nil_append]
    exact credRun_mono t 0 cur (Nat.zero_le cur)
  | cons x xs' ih =>
    intro t cur
    cases hx : isCredChar x with
    | true =>
      simp only [List.cons_append, credRun, hx, if_true]
      exact ih t (cur + 1)
    | false =>
      simp only [List.cons_append, credRun, hx]
      rw [if_neg (by simp)]
      exact le_trans (ih t 0) (le_max_right _ _)

theorem credRun_break_cons (b : Char) (hb : isCredChar b = false) (ys : List Char)
    (cur : Nat) : credRun (b :: ys) cur = max cur (credRun ys 0) := by
  simp only [credRun, hb]
  rw [if_neg (by simp)]

theorem credRun_split (b : Char) (hb : isCredChar b = false) (xs : List Char) :
    ∀ (ys : List Char) (cur : Nat),
      credRun (xs ++ b :: ys) cur = max (credRun xs cur) (credRun ys 0) := by
  induction xs with
  | nil =>
    intro ys cur
    simp only [List.nil_append]
    rw [credRun_break_cons b hb]
    rfl
  | cons x xs' ih =>
    intro ys cur
    cases hx : isCredChar x with
    | true =>
      simp only [List.cons_append, credRun, hx, if_true]
      exact ih ys (cur + 1)
    | false =>
      simp only [List.cons_append, credRun, hx, List.append_eq]
      rw [if_neg (by simp), if_neg (by simp), ih ys 0]
      exact (Nat.max_assoc cur _ _).symm

theorem containsSub_decomp (hay needle : List Char) (h : containsSub hay needle = true) :
    ∃ a b, hay = a ++ needle ++ b := by
  unfold containsSub at h
  rw [List.any_eq_true] at h
  obtain ⟨i, _, hpre⟩ := h
  rw [List.isPrefixOf_iff_prefix] at hpre
  obtain ⟨t, ht⟩ := hpre
  refine ⟨hay.take i, t, ?_⟩
  rw [List.append_assoc, ht, List.take_append_drop]

theorem length_le_credRun_of_contains (hay needle : List Char)
    (h : containsSub hay needle = true) (hc : ∀ c ∈ needle, isCredChar c = true) :
    needle.length ≤ credRun hay 0 := by
  obtain ⟨a, b, rfl⟩ := containsSub_decomp hay needle h
  calc needle.length = 0 + needle.length := (Nat.zero_add _).symm
    _ ≤ credRun (needle ++ b) 0 := credRun_all_cred needle b 0 hc
    _ ≤ credRun (a ++ (needle ++ b)) 0 := credRun_left a (needle ++ b) 0
    _ = credRun (a ++ needle ++ b) 0 := by rw [List.append_assoc]

theorem reprLen_le : ∀ n, n < 201 → (Nat.repr n).length ≤ 3 := by decide

theorem credRun_P_le (key : String) : credRun (jsSubstring key 0 10).data 0 ≤ 10 := by
  have h := credRun_le (jsSubstring key 0 10).data 0
  have hlen : (jsSubstring key 0 10).data.length ≤ 10 := by
    simp only [jsSubstring, List.length_drop, List.length_take]
    omega
  omega

theorem credRun_S_le (key : String) :
    credRun (jsSubstringFrom key ((key.length : Int) - 4)).data 0 ≤ 4 := by
  have h := credRun_le (jsSubstringFrom key ((key.length : Int) - 4)).data 0
  have hlen : (jsSubstringFrom key ((key.length : Int) - 4)).data.length ≤ 4 := by
    simp only [jsSubstringFrom, jsSubstring, List.length_drop, List.length_take]
    omega
  omega

theorem credRun_authComplete_le (key : String) (h4 : 4 ≤ key.length)
    (h200 : key.length ≤ 200) :
    credRun (authFailed401MessageComplete key).data 0 ≤ 14 := by
  have hne : ¬ key = "" := by
    intro h
    rw [h] at h4
    simp at h4
  have hmsg : (authFailed401MessageComplete key).data =
      "NVIDIA API authentication failed (401). Please verify your NVIDIA_API_KEY is correct. Current key:".data ++
      ' ' :: ((jsSubstring key 0 10).data ++ '.' :: '.' :: '.' ::
        ((jsSubstringFrom key ((key.length : Int) - 4)).data ++ ' ' :: '(' ::
          ((Nat.repr key.length).data ++ ' ' ::
            "chars). Check your .env.local file and ensure the key matches the one that works in Python.".data))) := by
    simp only [authFailed401MessageComplete, credFragment, if_neg hne, String.data_append]
    simp only [List.append_assoc, List.cons_append, List.nil_append, List.singleton_append]
  rw [hmsg]
  rw [credRun_split ' ' (by decide)]
  refine max_le (by decide) ?_
  rw [credRun_split '.' (by decide)]
  refine max_le ((credRun_P_le key).trans (by omega)) ?_
  rw [credRun_break_cons '.' (by decide), credRun_break_cons '.' (by decide)]
  simp only [Nat.zero_max]
  rw [credRun_split ' ' (by decide)]
  refine max_le ((credRun_S_le key).trans (by omega)) ?_
  rw [credRun_break_cons '(' (by decide)]
  simp only [Nat.zero_max]
  rw [credRun_split ' ' (by decide)]
  refine max_le ?_ (by decide)
  have h := credRun_le (Nat.repr key.length).data 0
  have hr : (Nat.repr key.length).length ≤ 3 := reprLen_le key.length (by omega)
  have hrl : (Nat.repr key.length).data.length = (Nat.repr key.length).length := rfl
  omega

/-! ### Claims C6, C7, C8, C9 -/

/-- C6: the timeout wrapper (modelled over abstract settlement times): a
call that never settles loses the race to the deadline timer, which
rejects at the configured deadline with the timeout message carrying that
deadline rounded to seconds; a call that settles by the deadline wins and
its result is returned. The default deadline is 60000 ms, and the default
message names 60 seconds. -/
theorem c6_deadline_race (α : Type) (timeoutMs : Nat) :
    withEvaluationTimeout timeoutMs (none : JsTask α) =
      some (timeoutMs, .rejected (timeoutMessage timeoutMs)) ∧
    (∀ (t : Nat) (r : Settled α), t ≤ timeoutMs →
      withEvaluationTimeout timeoutMs (some (t, r)) = some (t, r)) ∧
    EVALUATION_TIMEOUT_MS_default = 60000 ∧
    timeoutMessage EVALUATION_TIMEOUT_MS_default =
      "Evaluation timed out after 60 seconds. Please try again with a smaller snippet or retry later." := by
  refine ⟨rfl, ?_, rfl, by decide⟩
  intro t r h
  simp [withEvaluationTimeout, promiseRace, timeoutPromise, h]

theorem c6_deadline_race_witness :
    withEvaluationTimeout 60000 (none : JsTask Unit) =
      some (60000, .rejected (timeoutMessage 60000)) ∧
    ((5 : Nat) ≤ 60000 ∧
      withEvaluationTimeout 60000 (some (5, Settled.resolved ())) =
        some (5, Settled.resolved ())) :=
  ⟨(c6_deadline_race Unit 60000).1,
   by decide,
   (c6_deadline_race Unit 60000).2.1 5 (Settled.resolved ()) (by decide)⟩

/-- C7 counterexample to the claim as frozen: with a short configured
credential (6 characters), the complete variant's 401 message contains the
full secret — the 10-character prefix window already covers it. -/
theorem c7_short_credential_leaked :
    containsSub
      (nvidiaErrorMessageComplete "abc123" AI_CONFIG_model_default (some 401) none).data
      "abc123".data = true := by decide

/-- C7 (amended): the complete variant's 401 message embeds only a
10-character prefix, a 4-character suffix and the length of the
credential, and the streaming variant's 401 message embeds no credential
fragment at all; consequently a credential of 15 to 200 characters drawn
from the API-key alphabet (alphanumerics, dash, underscore) never appears
in full in either message. Credentials of at most 14 characters can be
reconstructed from the prefix and suffix (see the counterexample). -/
theorem c7_credential_redaction (key model : String) (errMsg : Option String)
    (h15 : 15 ≤ key.length) (h200 : key.length ≤ 200)
    (hchars : ∀ c ∈ key.data, isCredChar c = true) :
    containsSub (nvidiaErrorMessageComplete key model (some 401) errMsg).data
      key.data = false ∧
    containsSub (nvidiaErrorMessageStreaming (some 401) errMsg).data
      key.data = false := by
  have hklen : key.data.length = key.length := rfl
  constructor
  · by_contra hcon
    rw [Bool.not_eq_false] at hcon
    have hb := length_le_credRun_of_contains _ _ hcon hchars
    have hle : credRun (nvidiaErrorMessageComplete key model (some 401) errMsg).data 0 ≤ 14 := by
      have heq : nvidiaErrorMessageComplete key model (some 401) errMsg =
          authFailed401MessageComplete key := by
        simp [nvidiaErrorMessageComplete]
      rw [heq]
      exact credRun_authComplete_le key (by omega) h200
    omega
  · by_contra hcon
    rw [Bool.not_eq_false] at hcon
    have hb := length_le_credRun_of_contains _ _ hcon hchars
    have hle : credRun (nvidiaErrorMessageStreaming (some 401) errMsg).data 0 ≤ 14 := by
      have heq : nvidiaErrorMessageStreaming (some 401) errMsg =
          authFailed401MessageStreaming := by
        simp [nvidiaErrorMessageStreaming]
      rw [heq]
      decide
    omega

theorem c7_credential_redaction_witness :
    (15 ≤ ("nvapi-aaaabbbbccccdddd" : String).length ∧
      ("nvapi-aaaabbbbccccdddd" : String).length ≤ 200 ∧
      (∀ c ∈ ("nvapi-aaaabbbbccccdddd" : String).data, isCredChar c = true)) ∧
    containsSub
      (nvidiaErrorMessageComplete "nvapi-aaaabbbbccccdddd" AI_CONFIG_model_default
        (some 401) none).data "nvapi-aaaabbbbccccdddd".data = false ∧
    containsSub (nvidiaErrorMessageStreaming (some 401) none).data
      "nvapi-aaaabbbbccccdddd".data = false :=
  ⟨⟨by decide, by decide, by decide⟩,
   c7_credential_redaction "nvapi-aaaabbbbccccdddd" AI_CONFIG_model_default none
     (by decide) (by decide) (by decide)⟩

/-- C8 counterexample to the claim as frozen: with no credential
configured at all, the request's event trace still begins with the
deadline timer being started — `withEvaluationTimeout` schedules the timer
in the promise executor before the wrapped function (and hence the
credential check) runs. -/
theorem c8_timer_started_without_credential :
    (routeEvaluateRun Unit ⟨none, none⟩ 60000 none).1 = [EvEvent.timerStarted] ∧
    EvEvent.timerStarted ∈ (routeEvaluateRun Unit ⟨none, none⟩ 60000 none).1 := by
  decide

/-- C8 (amended): with no credential configured the request fails
immediately (settlement time 0) with the configuration error, and the
model call is never started — the check precedes it; however the deadline
timer IS started by the wrapper, contrary to the claim's last clause. -/
theorem c8_config_error_before_model_call (α : Type) (env : EvalEnv) (timeoutMs : Nat)
    (modelCall : JsTask α) (h : apiKeyMissing env = true) :
    (routeEvaluateRun α env timeoutMs modelCall).2 =
      some (0, .rejected configErrorMessage) ∧
    EvEvent.modelCallStarted ∉ (routeEvaluateRun α env timeoutMs modelCall).1 ∧
    EvEvent.timerStarted ∈ (routeEvaluateRun α env timeoutMs modelCall).1 := by
  refine ⟨?_, ?_, ?_⟩
  · simp [routeEvaluateRun, evaluateCodeCompleteRun, h, withEvaluationTimeout,
      promiseRace, timeoutPromise]
  · simp [routeEvaluateRun, evaluateCodeCompleteRun, h]
  · simp [routeEvaluateRun]

theorem c8_config_error_before_model_call_witness :
    apiKeyMissing ⟨some "placeholder-key-missing", none⟩ = true ∧
    ((routeEvaluateRun Unit ⟨some "placeholder-key-missing", none⟩ 60000 none).2 =
        some (0, .rejected configErrorMessage) ∧
      EvEvent.modelCallStarted ∉
        (routeEvaluateRun Unit ⟨some "placeholder-key-missing", none⟩ 60000 none).1 ∧
      EvEvent.timerStarted ∈
        (routeEvaluateRun Unit ⟨some "placeholder-key-missing", none⟩ 60000 none).1) :=
  ⟨by decide,
   c8_config_error_before_model_call Unit ⟨some "placeholder-key-missing", none⟩ 60000 none
     (by decide)⟩

/-- C9: once the credential guard has passed (the key is set, non-empty
and not the placeholder), `getNvidiaClient` succeeds — its throwing
condition is exactly the guard's — so the catch branch that falls back to
the module-level default client is unreachable, and the selected client is
freshly built from the current credential and base URL. (Between the guard
and the client construction the code performs no await, so both reads see
the same environment snapshot, which the model takes as one value.) -/
theorem c9_fresh_client_past_guard (importEnv env : EvalEnv)
    (h : apiKeyMissing env = false) :
    ∃ k, env.nvidiaApiKey = some k ∧
      getNvidiaClient env = .ok ⟨k, currentBaseUrl env⟩ ∧
      selectClient importEnv env = ⟨k, currentBaseUrl env⟩ := by
  cases henv : env.nvidiaApiKey with
  | none => rw [apiKeyMissing, henv] at h; exact absurd h (by simp)
  | some k =>
    have hk : (k == "" || k == "placeholder-key-missing") = false := by
      rw [apiKeyMissing, henv] at h
      exact h
    refine ⟨k, rfl, ?_, ?_⟩
    · simp [getNvidiaClient, henv, hk]
    · simp [selectClient, getNvidiaClient, henv, hk]

theorem c9_fresh_client_past_guard_witness :
    apiKeyMissing ⟨some "nvapi-live-key", some "https://example.test/v1"⟩ = false ∧
    ∃ k, (EvalEnv.mk (some "nvapi-live-key") (some "https://example.test/v1")).nvidiaApiKey =
        some k ∧
      getNvidiaClient ⟨some "nvapi-live-key", some "https://example.test/v1"⟩ =
        .ok ⟨k, currentBaseUrl ⟨some "nvapi-live-key", some "https://example.test/v1"⟩⟩ ∧
      selectClient ⟨none, none⟩ ⟨some "nvapi-live-key", some "https://example.test/v1"⟩ =
        ⟨k, currentBaseUrl ⟨some "nvapi-live-key", some "https://example.test/v1"⟩⟩ :=
  ⟨by decide,
   c9_fresh_client_past_guard ⟨none, none⟩
     ⟨some "nvapi-live-key", some "https://example.test/v1"⟩ (by decide)⟩

/-! ### The full-evaluation route (GET /api/evaluations/:id/full) -/

/-- A stored evaluation row, with the columns the route reads. -/
structure EvaluationRow where
  id : String
  user_id : String
  is_unlocked : Bool
  overall_score : Int
  readability_score : Int
  efficiency_score : Int
  maintainability_score : Int
  security_score : Int
  summary : String
  strengths : JVal
  improvements : JVal
  refactored_code : String
  detailed_analysis : JVal
  created_at : String
  unlocked_at : Option String
deriving DecidableEq

/-- The JSON body returned by the full-evaluation route on success. -/
structure FullEvalResponse where
  id : String
  overall_score : Int
  readability : Int
  efficiency : Int
  maintainability : Int
  security : Int
  summary : String
  strengths : JVal
  improvements : JVal
  refactored_code : String
  detailed_analysis : JVal
  is_unlocked : Bool
  created_at : String
  unlocked_at : Option String
deriving DecidableEq

/-- `.single()`: succeeds exactly when the filtered result has one row. -/
def singleRow (rows : List EvaluationRow) : Option EvaluationRow :=
  match rows with
  | [r] => some r
  | _ => none

/-- The full response body built from a row. -/
def fullResponseOf (ev : EvaluationRow) : FullEvalResponse :=
  ⟨ev.id, ev.overall_score, ev.readability_score, ev.efficiency_score,
   ev.maintainability_score, ev.security_score, ev.summary, ev.strengths,
   ev.improvements, ev.refactored_code, ev.detailed_analysis, ev.is_unlocked,
   ev.created_at, ev.unlocked_at⟩

/-- The handler of GET `/api/evaluations/:id/full`: select the evaluation
by id and owner with `.single()`, 404 when that fails, 403
(`Evaluation is locked. Payment required.`) when the row is not unlocked,
and the full body only otherwise. An error result carries only the status
code and message — no content fields. -/
def getFullEvaluation (db : List EvaluationRow) (userId evalId : String) :
    Except (Nat × String) FullEvalResponse :=
  match singleRow (db.filter (fun r => r.id == evalId && r.user_id == userId)) with
  | none => .error (404, "Evaluation not found")
  | some ev =>
    if !ev.is_unlocked then .error (403, "Evaluation is locked. Payment required.")
    else .ok (fullResponseOf ev)

/-- C10: for a stored evaluation belonging to the requesting user, the
full route fails with 403 `Evaluation is locked. Payment required.` and
returns no content fields whenever `is_unlocked` is false, and returns the
full body exactly when `is_unlocked` is true. -/
theorem c10_locked_full_route (db : List EvaluationRow) (userId evalId : String)
    (ev : EvaluationRow)
    (h : singleRow (db.filter (fun r => r.id == evalId && r.user_id == userId)) = some ev) :
    (ev.is_unlocked = false →
      getFullEvaluation db userId evalId =
        .error (403, "Evaluation is locked. Payment required.")) ∧
    (ev.is_unlocked = true →
      getFullEvaluation db userId evalId = .ok (fullResponseOf ev)) := by
  unfold getFullEvaluation
  rw [h]
  constructor
  · intro hu
    simp [hu]
  · intro hu
    simp [hu]

theorem c10_locked_full_route_witness :
    (singleRow ((([⟨"e1", "u1", false, 70, 7, 7, 7, 7, "sum", JVal.arr [], JVal.arr [],
        "code", JVal.null, "2025-01-01", none⟩] : List EvaluationRow)).filter
        (fun r => r.id == "e1" && r.user_id == "u1")) =
      some ⟨"e1", "u1", false, 70, 7, 7, 7, 7, "sum", JVal.arr [], JVal.arr [],
        "code", JVal.null, "2025-01-01", none⟩) ∧
    getFullEvaluation
      [⟨"e1", "u1", false, 70, 7, 7, 7, 7, "sum", JVal.arr [], JVal.arr [],
        "code", JVal.null, "2025-01-01", none⟩] "u1" "e1" =
      .error (403, "Evaluation is locked. Payment required.") :=
  ⟨by decide,
   (c10_locked_full_route
      [⟨"e1", "u1", false, 70, 7, 7, 7, 7, "sum", JVal.arr [], JVal.arr [],
        "code", JVal.null, "2025-01-01", none⟩] "u1" "e1"
      ⟨"e1", "u1", false, 70, 7, 7, 7, 7, "sum", JVal.arr [], JVal.arr [],
        "code", JVal.null, "2025-01-01", none⟩ (by decide)).1 rfl⟩
